import Mathlib

/-!
Verification of the AI command layer of the bpmn-editor repository.

We shallowly embed the command validator (`src/utils/validation.ts`),
the transform service (`src/services/bpmnTransformService.ts`), the AI
client response handling (`src/composables/useAiService.ts`), the chat
store (`src/stores/editorStore.ts`) and the API-key obfuscation
(`src/utils/security.ts`) into Lean, and prove the specified properties.
-/

namespace BpmnEditor

/-- Model of an untyped JavaScript value, as received from `JSON.parse`
or passed to the validators (`unknown` in the TypeScript source). -/
inductive JsValue where
  | undefinedVal : JsValue
  | null : JsValue
  | bool : Bool → JsValue
  | num : Int → JsValue
  | str : String → JsValue
  | arr : List JsValue → JsValue
  | obj : List (String × JsValue) → JsValue

/-- JavaScript `typeof` operator (restricted to the value shapes we model;
note `typeof null === "object"` and arrays are objects). -/
def typeofJs : JsValue → String
  | .undefinedVal => "undefined"
  | .null => "object"
  | .bool _ => "boolean"
  | .num _ => "number"
  | .str _ => "string"
  | .arr _ => "object"
  | .obj _ => "object"

/-- JavaScript truthiness: `undefined`, `null`, `false`, `0` and `""`
are falsy, everything else (including `[]` and `{}`) is truthy. -/
def truthy : JsValue → Bool
  | .undefinedVal => false
  | .null => false
  | .bool b => b
  | .num n => n != 0
  | .str s => s != ""
  | .arr _ => true
  | .obj _ => true

/-- Property access `v.k`: returns the field of an object, `undefined`
otherwise (arrays and primitives have none of the fields we access). -/
def getField (v : JsValue) (k : String) : JsValue :=
  match v with
  | .obj fs =>
    match fs.find? (fun p => p.1 == k) with
    | some p => p.2
    | none => .undefinedVal
  | _ => .undefinedVal

/-- `v !== undefined` in the source. -/
def isUndefined : JsValue → Bool
  | .undefinedVal => true
  | _ => false

/-- Strict equality of a value against a string literal
(`v === "lit"` in the source). -/
def strEq (v : JsValue) (t : String) : Bool :=
  match v with
  | .str s => s == t
  | _ => false

/-- `list.includes(v)` for a list of string literals: `includes` uses
strict equality, so non-strings never match. -/
def strIn (v : JsValue) (ts : List String) : Bool :=
  match v with
  | .str s => ts.contains s
  | _ => false

/-- The string payload of a value, used only where the source has
already established the value is a string. -/
def strVal : JsValue → String
  | .str s => s
  | _ => ""

/-- `{ valid, errors }` result structure of all validators
(`ValidationResult` in `src/types/index.ts`). -/
structure ValidationResult where
  valid : Bool
  errors : List String
deriving Repr, DecidableEq

/-- The nine recognized command kinds (`VALID_ACTIONS` in
`src/utils/validation.ts`). -/
def VALID_ACTIONS : List String :=
  ["clear", "addTask", "addStartEvent", "addEndEvent",
   "addExclusiveGateway", "addParallelGateway", "addSequenceFlow",
   "updateElement", "removeElement"]

/-- The five shape-creating kinds,
as enumerated inline in `validateCommand`. -/
def SHAPE_ACTIONS : List String :=
  ["addTask", "addStartEvent", "addEndEvent",
   "addExclusiveGateway", "addParallelGateway"]

/-- `validateCommand` from `src/utils/validation.ts`: structural
validation of one untyped candidate command. -/
def validateCommand (command : JsValue) : ValidationResult :=
  if !truthy command || typeofJs command != "object" then
    { valid := false, errors := ["Invalid command format"] }
  else
    let action := getField command "action"
    let actionErrs :=
      if !truthy action || typeofJs action != "string" then
        ["Command missing action"]
      else if !(VALID_ACTIONS.contains (strVal action)) then
        ["Invalid action: " ++ strVal action]
      else []
    let seqErrs :=
      if strEq action "addSequenceFlow" then
        (if !truthy (getField command "sourceId")
            || typeofJs (getField command "sourceId") != "string" then
          ["addSequenceFlow requires sourceId"] else []) ++
        (if !truthy (getField command "targetId")
            || typeofJs (getField command "targetId") != "string" then
          ["addSequenceFlow requires targetId"] else [])
      else []
    let shapeErrs :=
      if strIn action SHAPE_ACTIONS then
        (if !truthy (getField command "id")
            || typeofJs (getField command "id") != "string" then
          [strVal action ++ " requires id"] else []) ++
        (if !isUndefined (getField command "x")
            && typeofJs (getField command "x") != "number" then
          ["x coordinate must be a number"] else []) ++
        (if !isUndefined (getField command "y")
            && typeofJs (getField command "y") != "number" then
          ["y coordinate must be a number"] else [])
      else []
    let idErrs :=
      if strEq action "updateElement" || strEq action "removeElement" then
        (if !truthy (getField command "id")
            || typeofJs (getField command "id") != "string" then
          [strVal action ++ " requires id"] else [])
      else []
    let propErrs :=
      if strEq action "updateElement" then
        (if !truthy (getField command "properties")
            || typeofJs (getField command "properties") != "object" then
          ["updateElement requires properties object"] else [])
      else []
    let errors := actionErrs ++ seqErrs ++ shapeErrs ++ idErrs ++ propErrs
    { valid := errors.isEmpty, errors := errors }

/-- `validateCommands` from `src/utils/validation.ts`: validates an
array of candidates, prefixing each item's errors with its 1-based
index; a non-array input is rejected outright. -/
def validateCommands (commands : JsValue) : ValidationResult :=
  match commands with
  | .arr cs =>
    let errors :=
      (cs.mapIdx fun index cmd =>
        let result := validateCommand cmd
        if !result.valid then
          ["Command " ++ toString (index + 1) ++ ": "
            ++ String.intercalate ", " result.errors]
        else []).flatten
    { valid := errors.isEmpty, errors := errors }
  | _ => { valid := false, errors := ["Commands must be an array"] }

/-! ## Command executor (`src/services/bpmnTransformService.ts`) -/

/-- Default X position for new elements
(`CANVAS.DEFAULT_X` in `src/constants/index.ts`). -/
def CANVAS_DEFAULT_X : ℚ := 200

/-- Default Y position for new elements
(`CANVAS.DEFAULT_Y` in `src/constants/index.ts`). -/
def CANVAS_DEFAULT_Y : ℚ := 200

/-- A typed transform command (`TransformCommand` from
`src/types/index.ts`): a tagged union over the nine kinds.  The five
shape-adding kinds carry `id`, optional `name` and optional `x`/`y`. -/
inductive Cmd where
  | clear : Cmd
  | addTask (id : String) (name : Option String) (x y : Option ℚ) : Cmd
  | addStartEvent (id : String) (name : Option String) (x y : Option ℚ) : Cmd
  | addEndEvent (id : String) (name : Option String) (x y : Option ℚ) : Cmd
  | addExclusiveGateway (id : String) (name : Option String) (x y : Option ℚ) : Cmd
  | addParallelGateway (id : String) (name : Option String) (x y : Option ℚ) : Cmd
  | addSequenceFlow (sourceId targetId : String) : Cmd
  | updateElement (id : String) (properties : List (String × String)) : Cmd
  | removeElement (id : String) : Cmd
deriving Repr, DecidableEq

/-- One element of the diagram engine's registry: id, BPMN type, display
name, position (present for shapes, absent for connections), and for
sequence flows the ids of the connected endpoints. -/
structure DiagElem where
  id : String
  type : String
  name : String
  pos : Option (ℚ × ℚ)
  source : Option String
  target : Option String
deriving Repr, DecidableEq

/-- The diagram state the executor mutates through the engine: the
element registry plus a counter modelling the engine's generation of
fresh connection ids. -/
structure DiagState where
  elements : List DiagElem
  nextFlowId : Nat
deriving Repr, DecidableEq

/-- The blank diagram imported by the `clear` command
(`BLANK_DIAGRAM` in `src/utils/bpmnTemplates.ts`: a minimal document
with one process containing one start event `StartEvent_1`). -/
def blankState : DiagState :=
  { elements := [{ id := "StartEvent_1", type := "bpmn:StartEvent",
                   name := "", pos := some (179, 99),
                   source := none, target := none }],
    nextFlowId := 0 }

/-- `elementRegistry.get(id)`. -/
def findElem (s : DiagState) (id : String) : Option DiagElem :=
  s.elements.find? (fun e => e.id == id)

/-- Result value of one successfully executed command (the object
returned by the corresponding `BpmnTransformService` method). -/
inductive CmdOutcome where
  | cleared : CmdOutcome
  | created (id : String) (type : String) : CmdOutcome
  | updated (id : String) (updatedKeys : List String) : CmdOutcome
  | removed (id : String) : CmdOutcome
deriving Repr, DecidableEq

/-- `name || defaultName`: JavaScript `||` falls through on the falsy
empty string as well as on a missing name. -/
def nameOrDefault (name : Option String) (defaultName : String) : String :=
  match name with
  | some n => if n == "" then defaultName else n
  | none => defaultName

/-- `BpmnTransformService.addShape`: creates one shape of the given
type, defaulting the position to `CANVAS.DEFAULT_X`/`CANVAS.DEFAULT_Y`
when `x`/`y` are omitted, and the name to the per-kind default. -/
def addShape (type : String) (id : String) (name : Option String)
    (x y : Option ℚ) (defaultName : String) (s : DiagState) :
    CmdOutcome × DiagState :=
  let px := x.getD CANVAS_DEFAULT_X
  let py := y.getD CANVAS_DEFAULT_Y
  (CmdOutcome.created id type,
   { s with elements := s.elements ++
      [{ id := id, type := type, name := nameOrDefault name defaultName,
         pos := some (px, py), source := none, target := none }] })

/-- `BpmnTransformService.executeCommand`: dispatch on the action tag;
failures (missing referenced elements) are thrown as errors. -/
def executeCommand (command : Cmd) (s : DiagState) :
    Except String (CmdOutcome × DiagState) :=
  match command with
  | .clear => .ok (CmdOutcome.cleared, blankState)
  | .addTask id name x y => .ok (addShape "bpmn:Task" id name x y "Task" s)
  | .addStartEvent id name x y => .ok (addShape "bpmn:StartEvent" id name x y "" s)
  | .addEndEvent id name x y => .ok (addShape "bpmn:EndEvent" id name x y "" s)
  | .addExclusiveGateway id name x y =>
      .ok (addShape "bpmn:ExclusiveGateway" id name x y "" s)
  | .addParallelGateway id name x y =>
      .ok (addShape "bpmn:ParallelGateway" id name x y "" s)
  | .addSequenceFlow sourceId targetId =>
      match findElem s sourceId with
      | none => .error ("Source element not found: " ++ sourceId)
      | some _ =>
        match findElem s targetId with
        | none => .error ("Target element not found: " ++ targetId)
        | some _ =>
          let flowId := "SequenceFlow_" ++ toString s.nextFlowId
          .ok (CmdOutcome.created flowId "bpmn:SequenceFlow",
               { elements := s.elements ++
                  [{ id := flowId, type := "bpmn:SequenceFlow", name := "",
                     pos := none, source := some sourceId,
                     target := some targetId }],
                 nextFlowId := s.nextFlowId + 1 })
  | .updateElement id properties =>
      match findElem s id with
      | none => .error ("Element not found: " ++ id)
      | some _ =>
        let upd := fun (e : DiagElem) =>
          if e.id == id then
            { e with name := match properties.find? (fun p => p.1 == "name") with
                             | some p => p.2
                             | none => e.name }
          else e
        .ok (CmdOutcome.updated id (properties.map Prod.fst),
             { s with elements := s.elements.map upd })
  | .removeElement id =>
      match findElem s id with
      | none => .error ("Element not found: " ++ id)
      | some _ =>
        .ok (CmdOutcome.removed id,
             { s with elements := s.elements.filter (fun e => e.id != id) })

/-- `CommandResult` from `src/types/index.ts`: success flag, the
originating command, and the result or error message. -/
structure CommandResult where
  success : Bool
  command : Cmd
  result : Option CmdOutcome
  error : Option String
deriving Repr, DecidableEq

/-- `BpmnTransformService.executeCommands`: runs every command in
submission order, recording a success or failure entry per command; a
failure is caught and does not abort the rest of the batch. -/
def executeCommands (commands : List Cmd) (s : DiagState) :
    List CommandResult × DiagState :=
  match commands with
  | [] => ([], s)
  | command :: rest =>
    match executeCommand command s with
    | .ok (result, s') =>
      let (rs, sF) := executeCommands rest s'
      ({ success := true, command := command,
         result := some result, error := none } :: rs, sF)
    | .error e =>
      let (rs, sF) := executeCommands rest s
      ({ success := false, command := command,
         result := none, error := some e } :: rs, sF)

/-! ## Diagram context extractor
(`BpmnTransformService.getDiagramContext`) -/

/-- `Math.round`: rounds to the nearest integer, halves toward
positive infinity. -/
def jsRound (q : ℚ) : Int := Int.floor (q + 1/2)

/-- `element.businessObject?.name || ''`. -/
def nameOrEmpty : Option String → String
  | some n => n
  | none => ""

/-- One element summary `{ id, type, name, x?, y?, sourceId?, targetId? }`
produced by `getDiagramContext`. -/
structure ElemInfo where
  id : String
  type : String
  name : String
  x : Option Int
  y : Option Int
  sourceId : Option String
  targetId : Option String
deriving Repr, DecidableEq

/-- The filter applied by `getDiagramContext`: process, collaboration
and label elements are skipped. -/
def keepElem (e : DiagElem) : Bool :=
  !(e.type == "bpmn:Process" || e.type == "bpmn:Collaboration"
    || e.type == "label")

/-- The summary built for one kept element: name defaulted to the empty
string, coordinates rounded to integers when the element has a
position, and source/target ids attached for sequence flows. -/
def summarize (e : DiagElem) : ElemInfo :=
  { id := e.id, type := e.type, name := e.name,
    x := e.pos.map (fun p => jsRound p.1),
    y := e.pos.map (fun p => jsRound p.2),
    sourceId := if e.type == "bpmn:SequenceFlow" then e.source else none,
    targetId := if e.type == "bpmn:SequenceFlow" then e.target else none }

/-- `BpmnTransformService.getDiagramContext`: iterates the element
registry, skipping process/collaboration/label elements, and collects a
summary per remaining element (the source then serializes this list
with `JSON.stringify`; we keep the structured list). -/
def getDiagramContext (registry : List DiagElem) : List ElemInfo :=
  (registry.filter keepElem).map summarize

/-! ## Chat store (`src/stores/editorStore.ts`) -/

/-- One chat message (`ChatMessage` from `src/types/index.ts`): id and
timestamp are both taken from the clock at append time. -/
structure ChatMessage where
  id : Nat
  timestamp : Nat
  role : String
  content : String
deriving Repr, DecidableEq

/-- `addChatMessage` from the editor store: appends a message whose
`id` is `Date.now()` and whose `timestamp` is the current time; `now`
is the millisecond clock reading at the moment of the call. -/
def addChatMessage (messages : List ChatMessage) (now : Nat)
    (role content : String) : List ChatMessage :=
  messages ++ [{ id := now, timestamp := now, role := role, content := content }]

/-! ## Message validation and AI client
(`src/utils/validation.ts`, `src/composables/useAiService.ts`) -/

/-- The whitespace characters removed by `String.prototype.trim`
(restricted to the ASCII whitespace relevant here). -/
def isJsWhitespace (c : Char) : Bool :=
  c == ' ' || c == '\t' || c == '\n' || c == '\r'

/-- `message.trim()`, on the character-list view of a string. -/
def jsTrim (l : List Char) : List Char :=
  ((l.dropWhile isJsWhitespace).reverse.dropWhile isJsWhitespace).reverse

/-- `validateMessage` from `src/utils/validation.ts`: requires a
non-empty message whose trimmed form is non-empty and at most 10,000
characters long. -/
def validateMessage (message : List Char) : ValidationResult :=
  if message.isEmpty then
    { valid := false, errors := ["Message is required"] }
  else
    let trimmed := jsTrim message
    let errors :=
      (if trimmed.length == 0 then ["Message cannot be empty"] else []) ++
      (if trimmed.length > 10000 then
        ["Message exceeds maximum length of 10,000 characters"] else [])
    { valid := errors.isEmpty, errors := errors }

/-- `AiResponse` from `src/types/index.ts` (the `message` field keeps
the raw JavaScript value the source would place there). -/
structure AiResponse where
  message : JsValue
  commands : List JsValue

/-- `parsed.commands || []`. -/
def commandsOf (parsed : JsValue) : JsValue :=
  let c := getField parsed "commands"
  if truthy c then c else .arr []

/-- `parsed.message || 'Done!'`. -/
def messageOrDone (parsed : JsValue) : JsValue :=
  let m := getField parsed "message"
  if truthy m then m else .str "Done!"

/-- The element list of a value known to be an array. -/
def arrElems : JsValue → List JsValue
  | .arr l => l
  | _ => []

/-- Whether a value is JavaScript `null` (property access on `null`
throws a `TypeError`). -/
def isNull : JsValue → Bool
  | .null => true
  | _ => false

/-- The response-content handling of `sendMessage`
(`src/composables/useAiService.ts`, the inner `try`/`catch` around
`JSON.parse`): `parseJson` models the external `JSON.parse`, returning
`none` when it throws.  A parse result of `null` makes the subsequent
property access `parsed.commands` throw, which the same `catch`
swallows, so it lands in the raw-text fallback as well. -/
def processAiContent (parseJson : String → Option JsValue)
    (content : String) : AiResponse :=
  match parseJson content with
  | none => { message := .str content, commands := [] }
  | some parsed =>
    if isNull parsed then { message := .str content, commands := [] }
    else
      let commands := commandsOf parsed
      if (validateCommands commands).valid then
        { message := messageOrDone parsed, commands := arrElems commands }
      else
        { message := messageOrDone parsed, commands := [] }

/-- Outcome of the external `fetch` to the chat-completion endpoint. -/
inductive NetResult where
  | httpError (status : Nat) (apiErrMsg : Option String) : NetResult
  | noContent : NetResult
  | content (text : String) : NetResult

/-- Result of one `sendMessage` call: the returned response or thrown
error, plus whether the network request was ever issued. -/
structure SendResult where
  response : Except String AiResponse
  fetchCalled : Bool

/-- `sendMessage` from `src/composables/useAiService.ts`: fails fast on
a missing API key or invalid message before any network activity, then
issues the request and processes the reply content. -/
def sendMessage (apiKey : List Char) (userMessage : List Char)
    (parseJson : String → Option JsValue) (net : NetResult) : SendResult :=
  if apiKey.isEmpty then
    { response := .error
        "API key not configured. Please set your API key in the chat settings.",
      fetchCalled := false }
  else
    let v := validateMessage userMessage
    if !v.valid then
      { response := .error (String.intercalate ", " v.errors),
        fetchCalled := false }
    else
      match net with
      | .httpError status apiErrMsg =>
        { response := .error (match apiErrMsg with
            | some m => m
            | none => "API request failed: " ++ toString status),
          fetchCalled := true }
      | .noContent =>
        { response := .error "No response from AI", fetchCalled := true }
      | .content text =>
        { response := .ok (processAiContent parseJson text),
          fetchCalled := true }

/-! ## API-key obfuscation (`src/utils/security.ts`)

The source XORs the key's character codes with a fixed key string and
base64-encodes the result with the browser's `btoa`; `deobfuscate`
reverses this with `atob`.  We model `btoa`/`atob` concretely on byte
lists. -/

/-- The standard base64 alphabet used by `btoa`/`atob`. -/
def B64_CHARS : List Char :=
  "ABCDEFGHIJKLMNOPQRSTUVWXYZabcdefghijklmnopqrstuvwxyz0123456789+/".toList

/-- Character for one six-bit group. -/
def encC (s : Nat) : Char := B64_CHARS.getD s 'A'

/-- Six-bit group for one base64 character (`none` for characters
outside the alphabet). -/
def decC (c : Char) : Option Nat := B64_CHARS.findIdx? (fun d => d == c)

/-- `btoa` on a byte list: encodes three bytes into four alphabet
characters, padding a trailing group of one or two bytes with `=`. -/
def b64encode : List Nat → List Char
  | [] => []
  | [a] => [encC (a / 4), encC (a % 4 * 16), '=', '=']
  | [a, b] => [encC (a / 4), encC (a % 4 * 16 + b / 16), encC (b % 16 * 4), '=']
  | a :: b :: c :: rest =>
    encC (a / 4) :: encC (a % 4 * 16 + b / 16) ::
    encC (b % 16 * 4 + c / 64) :: encC (c % 64) :: b64encode rest

/-- `atob` on a character list, producing the decoded bytes or `none`
when the input is not valid base64 (the source catches this case):
four-character groups decode to three bytes, with `=` padding allowed
only at the very end, closing the last group down to one or two
bytes. -/
def b64decode : List Char → Option (List Nat)
  | [] => some []
  | w :: x :: y :: z :: rest =>
    match decC w, decC x with
    | some a, some b =>
      if y == '=' then
        if z == '=' && rest.isEmpty then some [a * 4 + b / 16] else none
      else
        match decC y with
        | some c =>
          if z == '=' then
            if rest.isEmpty then some [a * 4 + b / 16, b % 16 * 16 + c / 4]
            else none
          else
            match decC z with
            | some d =>
              match b64decode rest with
              | some restBytes =>
                some ([a * 4 + b / 16, b % 16 * 16 + c / 4, c % 4 * 64 + d]
                  ++ restBytes)
              | none => none
            | none => none
        | none => none
    | _, _ => none
  | _ => none

/-- Character codes of the fixed obfuscation key
(`OBFUSCATION_KEY = 'bpmn-editor-v1'`). -/
def OBF_KEY_CODES : List Nat := "bpmn-editor-v1".toList.map Char.toNat

/-- `OBFUSCATION_KEY.charCodeAt(i % OBFUSCATION_KEY.length)`. -/
def keyCode (i : Nat) : Nat := OBF_KEY_CODES.getD (i % OBF_KEY_CODES.length) 0

/-- The XOR loop shared by `obfuscate` and `deobfuscate`: the code at
position `i` is XORed with the key code at `i` (the starting index is
generalized for the recursion). -/
def xorFrom (i : Nat) : List Nat → List Nat
  | [] => []
  | c :: rest => (c ^^^ keyCode i) :: xorFrom (i + 1) rest

/-- `obfuscate` from `src/utils/security.ts`: XOR the character codes
with the key, then base64-encode; the empty string maps to itself. -/
def obfuscate (text : String) : String :=
  if text == "" then ""
  else String.mk (b64encode (xorFrom 0 (text.toList.map Char.toNat)))

/-- `deobfuscate` from `src/utils/security.ts`: base64-decode and XOR
with the key again; a decode failure is caught and yields `""`. -/
def deobfuscate (encoded : String) : String :=
  if encoded == "" then ""
  else
    match b64decode encoded.toList with
    | none => ""
    | some decoded => String.mk ((xorFrom 0 decoded).map Char.ofNat)

/-- `stored.startsWith('sk-')`, on the character-list view. -/
def startsWithSkDash (s : String) : Bool :=
  s.toList.take 3 == ['s', 'k', '-']

/-- `storeApiKey`: models the `localStorage` slot under
`STORAGE_KEYS.API_KEY` as an optional string; a falsy key removes the
entry, otherwise the obfuscated key is stored. -/
def storeApiKey (key : String) : Option String :=
  if key == "" then none else some (obfuscate key)

/-- `retrieveApiKey`: a missing or empty slot yields `""`; a stored
value beginning with `sk-` is treated as a legacy plaintext key and
returned as is; otherwise the value is deobfuscated. -/
def retrieveApiKey (slot : Option String) : String :=
  match slot with
  | none => ""
  | some stored =>
    if stored == "" then ""
    else if startsWithSkDash stored then stored
    else deobfuscate stored

/-! ## Helper lemmas -/

/-- Both validators return `valid` exactly when the error list is
empty (helper shared by several theorems below). -/
theorem validateCommand_valid_iff (v : JsValue) :
    (validateCommand v).valid = true ↔ (validateCommand v).errors = [] := by
  unfold validateCommand
  split
  · simp
  · simp [List.isEmpty_iff]

/-- `validateCommands` analogue of `validateCommand_valid_iff`. -/
theorem validateCommands_valid_iff (v : JsValue) :
    (validateCommands v).valid = true ↔ (validateCommands v).errors = [] := by
  unfold validateCommands
  split
  · simp [List.isEmpty_iff]
  · simp

/-! ## C5: the validators are total, pure and structured -/

/-- C5: for every input value — `null`, non-objects, objects with
arbitrary fields — `validateCommand` and `validateCommands` are total
functions into `{valid, errors}` structures (so they never throw and,
being pure, never mutate state), with `valid` true exactly when
`errors` is empty. -/
theorem validators_total_and_structured (v : JsValue) :
    ((validateCommand v).valid = true ↔ (validateCommand v).errors = []) ∧
    ((validateCommands v).valid = true ↔ (validateCommands v).errors = []) :=
  ⟨validateCommand_valid_iff v, validateCommands_valid_iff v⟩

/-! ## C4: `validateCommand` on `addSequenceFlow` and bad actions -/

/-- C4 counterexample: the candidate `{action: ""}` has an action
string that is not one of the nine recognized kinds, and the result is
invalid — but its only error is `"Command missing action"`; no
"Invalid action" error is reported (the falsy empty string takes the
missing-action branch). -/
theorem validateCommand_emptyAction_no_invalid_action_error :
    (validateCommand (.obj [("action", .str "")])).valid = false ∧
    (validateCommand (.obj [("action", .str "")])).errors
      = ["Command missing action"] ∧
    "Invalid action: " ∉ (validateCommand (.obj [("action", .str "")])).errors := by
  decide

/-- C4 (amended): the well-formed `addSequenceFlow` candidate is valid
with no errors; an `addSequenceFlow` candidate whose `sourceId`
(resp. `targetId`) is missing, non-string or the empty string is
invalid with an error naming that field; and a candidate whose action
is a *non-empty* string not among the nine recognized kinds is invalid
with an `"Invalid action: ..."` error (an empty-string action instead
reports `"Command missing action"`). -/
theorem validateCommand_addSequenceFlow_spec :
    (validateCommand (.obj [("action", .str "addSequenceFlow"),
        ("sourceId", .str "a"), ("targetId", .str "b")])
      = { valid := true, errors := [] }) ∧
    (∀ cmd : JsValue, truthy cmd = true → typeofJs cmd = "object" →
      strEq (getField cmd "action") "addSequenceFlow" = true →
      (!truthy (getField cmd "sourceId")
        || typeofJs (getField cmd "sourceId") != "string") = true →
      (validateCommand cmd).valid = false ∧
      "addSequenceFlow requires sourceId" ∈ (validateCommand cmd).errors) ∧
    (∀ cmd : JsValue, truthy cmd = true → typeofJs cmd = "object" →
      strEq (getField cmd "action") "addSequenceFlow" = true →
      (!truthy (getField cmd "targetId")
        || typeofJs (getField cmd "targetId") != "string") = true →
      (validateCommand cmd).valid = false ∧
      "addSequenceFlow requires targetId" ∈ (validateCommand cmd).errors) ∧
    (∀ (cmd : JsValue) (s : String), truthy cmd = true → typeofJs cmd = "object" →
      getField cmd "action" = .str s → s ≠ "" → s ∉ VALID_ACTIONS →
      (validateCommand cmd).valid = false ∧
      ("Invalid action: " ++ s) ∈ (validateCommand cmd).errors) := by
  refine ⟨by decide, ?_, ?_, ?_⟩
  · intro cmd h1 h2 h3 h4
    have hmem : "addSequenceFlow requires sourceId" ∈ (validateCommand cmd).errors := by
      unfold validateCommand
      simp only [h1, h2, h3, h4]
      simp
    refine ⟨?_, hmem⟩
    rcases h : (validateCommand cmd).valid with _ | _
    · rfl
    · rw [validateCommand_valid_iff] at h
      rw [h] at hmem
      cases hmem
  · intro cmd h1 h2 h3 h4
    have hmem : "addSequenceFlow requires targetId" ∈ (validateCommand cmd).errors := by
      unfold validateCommand
      simp only [h1, h2, h3, h4]
      simp
    refine ⟨?_, hmem⟩
    rcases h : (validateCommand cmd).valid with _ | _
    · rfl
    · rw [validateCommand_valid_iff] at h
      rw [h] at hmem
      cases hmem
  · intro cmd s h1 h2 h3 h4 h5
    have hmem : ("Invalid action: " ++ s) ∈ (validateCommand cmd).errors := by
      unfold validateCommand
      simp only [h1, h2, h3]
      simp [truthy, typeofJs, strVal, h4, h5]
    refine ⟨?_, hmem⟩
    rcases h : (validateCommand cmd).valid with _ | _
    · rfl
    · rw [validateCommand_valid_iff] at h
      rw [h] at hmem
      cases hmem

/-- C4 witness: the amended statement applied at the concrete inputs
from the spec. -/
theorem validateCommand_addSequenceFlow_spec_witness :
    ((validateCommand (.obj [("action", .str "addSequenceFlow"),
        ("targetId", .str "b")])).valid = false ∧
      "addSequenceFlow requires sourceId"
        ∈ (validateCommand (.obj [("action", .str "addSequenceFlow"),
            ("targetId", .str "b")])).errors) ∧
    ((validateCommand (.obj [("action", .str "addSequenceFlow"),
        ("sourceId", .str "a")])).valid = false ∧
      "addSequenceFlow requires targetId"
        ∈ (validateCommand (.obj [("action", .str "addSequenceFlow"),
            ("sourceId", .str "a")])).errors) ∧
    ((validateCommand (.obj [("action", .str "bogus")])).valid = false ∧
      ("Invalid action: " ++ "bogus")
        ∈ (validateCommand (.obj [("action", .str "bogus")])).errors) :=
  ⟨validateCommand_addSequenceFlow_spec.2.1 _ (by decide) (by decide)
      (by decide) (by decide),
   validateCommand_addSequenceFlow_spec.2.2.1 _ (by decide) (by decide)
      (by decide) (by decide),
   validateCommand_addSequenceFlow_spec.2.2.2 _ "bogus" (by decide) (by decide)
      rfl (by decide) (by decide)⟩

/-! ## C1: batch execution returns one ordered result per command -/

/-- C1: `executeCommands` returns exactly one `CommandResult` per input
command, in input order (no abort, no reordering, no deduplication);
every result is either a success carrying a result value, or a failure
`{success := false, command, error}`; and a command whose execution
throws is recorded as such a failure entry while execution proceeds
with all remaining commands of the batch. -/
theorem executeCommands_one_result_per_command (commands : List Cmd) (s : DiagState) :
    ((executeCommands commands s).1.map CommandResult.command = commands) ∧
    ((executeCommands commands s).1.length = commands.length) ∧
    (∀ r ∈ (executeCommands commands s).1,
      (r.success = true ∧ (∃ o, r.result = some o) ∧ r.error = none) ∨
      (r.success = false ∧ r.result = none ∧ ∃ e, r.error = some e)) ∧
    (∀ (c : Cmd) (rest : List Cmd), commands = c :: rest →
      ∀ e : String, executeCommand c s = .error e →
      (executeCommands commands s).1 =
        { success := false, command := c, result := none, error := some e }
          :: (executeCommands rest s).1) := by
  induction commands generalizing s with
  | nil => simp [executeCommands]
  | cons c rest ih =>
    rcases h : executeCommand c s with e | ⟨result, s'⟩
    · rcases hrec : executeCommands rest s with ⟨rs, sF⟩
      have ihs := ih s
      rw [hrec] at ihs
      refine ⟨?_, ?_, ?_, ?_⟩
      · simp [executeCommands, h, hrec, ihs.1]
      · simp [executeCommands, h, hrec, ihs.2.1]
      · intro r hr
        simp only [executeCommands, h, hrec] at hr
        rcases List.mem_cons.1 hr with hr' | hr'
        · right
          subst hr'
          exact ⟨rfl, rfl, e, rfl⟩
        · exact ihs.2.2.1 r hr'
      · intro c' rest' hc e' he
        injection hc with h1 h2
        subst h1
        subst h2
        rw [h] at he
        injection he with he'
        simp [executeCommands, h, hrec, he']
    · rcases hrec : executeCommands rest s' with ⟨rs, sF⟩
      have ihs := ih s'
      rw [hrec] at ihs
      refine ⟨?_, ?_, ?_, ?_⟩
      · simp [executeCommands, h, hrec, ihs.1]
      · simp [executeCommands, h, hrec, ihs.2.1]
      · intro r hr
        simp only [executeCommands, h, hrec] at hr
        rcases List.mem_cons.1 hr with hr' | hr'
        · left
          subst hr'
          exact ⟨rfl, ⟨result, rfl⟩, rfl⟩
        · exact ihs.2.2.1 r hr'
      · intro c' rest' hc e' he
        injection hc with h1 h2
        subst h1
        subst h2
        rw [h] at he
        cases he

/-- C1 witness: the batch property applied to a concrete two-command
batch whose second command throws (missing target element). -/
theorem executeCommands_one_result_per_command_witness :
    ((executeCommands [Cmd.addSequenceFlow "x" "y"] blankState).1.map
        CommandResult.command = [Cmd.addSequenceFlow "x" "y"]) ∧
    ((executeCommands [Cmd.addSequenceFlow "x" "y"] blankState).1 =
      [{ success := false, command := Cmd.addSequenceFlow "x" "y",
         result := none, error := some "Source element not found: x" }]) :=
  have h := executeCommands_one_result_per_command
    [Cmd.addSequenceFlow "x" "y"] blankState
  ⟨h.1, by
    have h4 := h.2.2.2 (Cmd.addSequenceFlow "x" "y") [] rfl
      "Source element not found: x" rfl
    simpa [executeCommands] using h4⟩

/-! ## C3: default positions of shape-adding commands -/

/-- C3 counterexample: with `x` and `y` omitted, `addStartEvent` and
`addEndEvent` both create their shape at the canvas-wide default
position `(200, 200)` — identical to the `addTask` default — not at the
action-specific positions `x = 100` resp. `x = 500`. -/
theorem addShape_defaults_counterexample :
    ((addShape "bpmn:StartEvent" "s1" none none none "" blankState).2.elements.map
        DiagElem.pos = [some (179, 99), some (200, 200)]) ∧
    ((addShape "bpmn:EndEvent" "e1" none none none "" blankState).2.elements.map
        DiagElem.pos = [some (179, 99), some (200, 200)]) ∧
    ((addShape "bpmn:Task" "t1" none none none "Task" blankState).2.elements.map
        DiagElem.pos = [some (179, 99), some (200, 200)]) ∧
    some (((200 : ℚ), (200 : ℚ))) ≠ some (((100 : ℚ), (200 : ℚ))) ∧
    some (((200 : ℚ), (200 : ℚ))) ≠ some (((500 : ℚ), (200 : ℚ))) := by
  refine ⟨rfl, rfl, rfl, by norm_num, by norm_num⟩

/-- C3 (amended): every shape-adding command that omits `x` and `y`
creates its shape at the same default position
`(CANVAS.DEFAULT_X, CANVAS.DEFAULT_Y) = (200, 200)`, regardless of the
action kind: start events, end events, tasks and both gateway kinds all
share the one canvas default. -/
theorem addShape_default_position_uniform (ty id : String)
    (name : Option String) (dn : String) (s : DiagState) :
    ((addShape ty id name none none dn s).2.elements =
      s.elements ++ [{ id := id, type := ty, name := nameOrDefault name dn,
                       pos := some (CANVAS_DEFAULT_X, CANVAS_DEFAULT_Y),
                       source := none, target := none }]) ∧
    CANVAS_DEFAULT_X = 200 ∧ CANVAS_DEFAULT_Y = 200 ∧
    (executeCommand (Cmd.addTask id name none none) s
      = .ok (addShape "bpmn:Task" id name none none "Task" s)) ∧
    (executeCommand (Cmd.addStartEvent id name none none) s
      = .ok (addShape "bpmn:StartEvent" id name none none "" s)) ∧
    (executeCommand (Cmd.addEndEvent id name none none) s
      = .ok (addShape "bpmn:EndEvent" id name none none "" s)) ∧
    (executeCommand (Cmd.addExclusiveGateway id name none none) s
      = .ok (addShape "bpmn:ExclusiveGateway" id name none none "" s)) ∧
    (executeCommand (Cmd.addParallelGateway id name none none) s
      = .ok (addShape "bpmn:ParallelGateway" id name none none "" s)) :=
  ⟨rfl, rfl, rfl, rfl, rfl, rfl, rfl, rfl⟩

/-! ## C7: chat message ids come from the millisecond clock -/

/-- C7 counterexample: two successive `addChatMessage` calls within the
same millisecond (`Date.now()` returning 5 both times) produce two
messages with the *same* id 5 — the later id is not strictly greater
and ids are not unique in the history. -/
theorem addChatMessage_same_millisecond_counterexample :
    ((addChatMessage (addChatMessage [] 5 "user" "hello") 5 "assistant" "hi").map
        ChatMessage.id = [5, 5]) ∧
    ¬ (5 : Nat) < 5 := by
  decide

/-- C7 (amended): `addChatMessage` appends a message whose id and
timestamp are both the current clock reading, so the id of a later
message strictly exceeds the id of an earlier one exactly when the
clock advanced between the calls; calls within the same millisecond
share an id. -/
theorem addChatMessage_id_is_clock (messages : List ChatMessage)
    (now1 now2 : Nat) (r1 c1 r2 c2 : String) :
    (addChatMessage messages now1 r1 c1 =
      messages ++ [{ id := now1, timestamp := now1, role := r1, content := c1 }]) ∧
    ((addChatMessage (addChatMessage messages now1 r1 c1) now2 r2 c2).getLast?
      = some { id := now2, timestamp := now2, role := r2, content := c2 }) ∧
    (now1 < now2 →
      (((addChatMessage (addChatMessage messages now1 r1 c1) now2 r2 c2).getLast?.map
          ChatMessage.id).getD 0 >
       (((addChatMessage messages now1 r1 c1).getLast?.map ChatMessage.id).getD 0))) := by
  refine ⟨rfl, ?_, ?_⟩
  · simp [addChatMessage]
  · intro h
    simp only [addChatMessage]
    rw [List.append_assoc]
    simp [h]

/-- C7 witness: the amended statement applied with the clock advancing
from 5 to 6 between the two calls. -/
theorem addChatMessage_id_is_clock_witness :
    ((addChatMessage (addChatMessage [] 5 "user" "hello") 6 "assistant" "hi").getLast?.map
        ChatMessage.id).getD 0 >
    (((addChatMessage ([] : List ChatMessage) 5 "user" "hello").getLast?.map
        ChatMessage.id).getD 0) :=
  (addChatMessage_id_is_clock [] 5 6 "user" "hello" "assistant" "hi").2.2 (by decide)

/-- Unfolding equation for `processAiContent` on a successful parse
(helper). -/
theorem processAiContent_some (parseJson : String → Option JsValue)
    (content : String) (p : JsValue) (hp : parseJson content = some p) :
    processAiContent parseJson content =
      if isNull p then { message := .str content, commands := [] }
      else if (validateCommands (commandsOf p)).valid then
        { message := messageOrDone p, commands := arrElems (commandsOf p) }
      else { message := messageOrDone p, commands := [] } := by
  unfold processAiContent
  rw [hp]

/-- Unfolding equation for `processAiContent` on a parse failure
(helper). -/
theorem processAiContent_none (parseJson : String → Option JsValue)
    (content : String) (hp : parseJson content = none) :
    processAiContent parseJson content
      = { message := .str content, commands := [] } := by
  unfold processAiContent
  rw [hp]

/-! ## C8: diagram context extraction -/

/-- C8: `getDiagramContext` produces no entry for elements of type
`bpmn:Process`, `bpmn:Collaboration` or `label`; every included element
that has a position gets integer (`Math.round`ed) `x` and `y` in its
summary; and the summary of every included `bpmn:SequenceFlow` carries
the `sourceId` and `targetId` of its endpoints. -/
theorem getDiagramContext_spec (registry : List DiagElem) :
    (∀ i ∈ getDiagramContext registry,
      i.type ≠ "bpmn:Process" ∧ i.type ≠ "bpmn:Collaboration" ∧ i.type ≠ "label") ∧
    (∀ e ∈ registry, keepElem e = true → ∀ x y : ℚ, e.pos = some (x, y) →
      summarize e ∈ getDiagramContext registry ∧
      (summarize e).x = some (jsRound x) ∧ (summarize e).y = some (jsRound y)) ∧
    (∀ e ∈ registry, keepElem e = true → e.type = "bpmn:SequenceFlow" →
      summarize e ∈ getDiagramContext registry ∧
      (summarize e).sourceId = e.source ∧ (summarize e).targetId = e.target) := by
  refine ⟨?_, ?_, ?_⟩
  · intro i hi
    simp only [getDiagramContext, List.mem_map, List.mem_filter] at hi
    obtain ⟨e, ⟨_, hk⟩, rfl⟩ := hi
    simp only [keepElem, Bool.not_eq_true', Bool.or_eq_false_iff,
      beq_eq_false_iff_ne] at hk
    exact ⟨hk.1.1, hk.1.2, hk.2⟩
  · intro e he hk x y hpos
    refine ⟨List.mem_map_of_mem _ (List.mem_filter.2 ⟨he, hk⟩), ?_, ?_⟩ <;>
      simp [summarize, hpos]
  · intro e he hk ht
    refine ⟨List.mem_map_of_mem _ (List.mem_filter.2 ⟨he, hk⟩), ?_, ?_⟩ <;>
      simp [summarize, ht]

/-- C8 witness: the extraction property applied to a concrete registry
holding a process (excluded), a task at the fractional position
`(100.5, 99)` (rounded to `(101, 99)`), and a sequence flow. -/
theorem getDiagramContext_spec_witness :
    (summarize ⟨"t1", "bpmn:Task", "Review", some (201/2, 99), none, none⟩
      ∈ getDiagramContext
        [⟨"Process_1", "bpmn:Process", "", none, none, none⟩,
         ⟨"t1", "bpmn:Task", "Review", some (201/2, 99), none, none⟩,
         ⟨"f1", "bpmn:SequenceFlow", "", none, some "t1", some "t2"⟩]) ∧
    (summarize ⟨"t1", "bpmn:Task", "Review", some (201/2, 99), none, none⟩).x
      = some (jsRound (201/2)) ∧
    (summarize ⟨"f1", "bpmn:SequenceFlow", "", none, some "t1", some "t2"⟩).sourceId
      = some "t1" ∧
    jsRound (201/2) = 101 := by
  have h := getDiagramContext_spec
    [⟨"Process_1", "bpmn:Process", "", none, none, none⟩,
     ⟨"t1", "bpmn:Task", "Review", some (201/2, 99), none, none⟩,
     ⟨"f1", "bpmn:SequenceFlow", "", none, some "t1", some "t2"⟩]
  have h2 := h.2.1 ⟨"t1", "bpmn:Task", "Review", some (201/2, 99), none, none⟩
    (by simp) rfl (201/2) 99 rfl
  have h3 := h.2.2 ⟨"f1", "bpmn:SequenceFlow", "", none, some "t1", some "t2"⟩
    (by simp) rfl rfl
  refine ⟨h2.1, h2.2.1, h3.2.1, ?_⟩
  unfold jsRound
  norm_num

/-! ## C2: parse and validation gating of model replies -/

/-- C2: the response returned by `sendMessage` for a model reply
`content` has a non-empty command list only if `content` parsed as JSON
and `validateCommands` succeeded on its commands; a `JSON.parse`
failure yields `{message: content, commands: []}` with no exception
propagating; and a successful parse whose commands fail validation
yields an empty command list while the parsed message is kept. -/
theorem sendMessage_parse_and_validation_gate :
    (∀ (parseJson : String → Option JsValue) (content : String),
      (processAiContent parseJson content).commands ≠ [] →
      ∃ p, parseJson content = some p ∧ isNull p = false ∧
        (validateCommands (commandsOf p)).valid = true) ∧
    (∀ (parseJson : String → Option JsValue) (content : String),
      parseJson content = none →
      processAiContent parseJson content
        = { message := .str content, commands := [] }) ∧
    (∀ (parseJson : String → Option JsValue) (content : String) (p : JsValue),
      parseJson content = some p → isNull p = false →
      (validateCommands (commandsOf p)).valid = false →
      (processAiContent parseJson content).commands = [] ∧
      (truthy (getField p "message") = true →
        (processAiContent parseJson content).message = getField p "message")) ∧
    (∀ (apiKey msg : List Char) (parseJson : String → Option JsValue)
        (content : String),
      apiKey.isEmpty = false → (validateMessage msg).valid = true →
      (sendMessage apiKey msg parseJson (.content content)).response
        = .ok (processAiContent parseJson content)) := by
  refine ⟨?_, ?_, ?_, ?_⟩
  · intro parseJson content hne
    cases hp : parseJson content with
    | none => rw [processAiContent_none parseJson content hp] at hne; simp at hne
    | some p =>
      rw [processAiContent_some parseJson content p hp] at hne
      by_cases hnull : isNull p
      · rw [if_pos hnull] at hne; simp at hne
      · refine ⟨p, rfl, by simpa using hnull, ?_⟩
        by_cases hv : (validateCommands (commandsOf p)).valid
        · exact hv
        · rw [if_neg hnull, if_neg hv] at hne
          simp at hne
  · intro parseJson content hp
    exact processAiContent_none parseJson content hp
  · intro parseJson content p hp hnull hv
    rw [processAiContent_some parseJson content p hp,
        if_neg (by simp [hnull]), if_neg (by simp [hv])]
    exact ⟨rfl, fun ht => by simp [messageOrDone, ht]⟩
  · intro apiKey msg parseJson content hk hv
    unfold sendMessage
    rw [if_neg (by simp [hk]), if_neg (by simp [hv])]

/-- C2 witness: the gate applied to a model reply whose commands fail
validation (`removeElement` without an id): the commands are dropped
and the parsed message `"ok"` is kept. -/
theorem sendMessage_parse_and_validation_gate_witness :
    (processAiContent
        (fun _ => some (.obj [("message", .str "ok"),
          ("commands", .arr [.obj [("action", .str "removeElement")]])]))
        "raw").commands = [] ∧
    (processAiContent
        (fun _ => some (.obj [("message", .str "ok"),
          ("commands", .arr [.obj [("action", .str "removeElement")]])]))
        "raw").message
      = getField (.obj [("message", .str "ok"),
          ("commands", .arr [.obj [("action", .str "removeElement")]])]) "message" :=
  have h := sendMessage_parse_and_validation_gate.2.2.1
    (fun _ => some (.obj [("message", .str "ok"),
      ("commands", .arr [.obj [("action", .str "removeElement")]])]))
    "raw"
    (.obj [("message", .str "ok"),
      ("commands", .arr [.obj [("action", .str "removeElement")]])])
    rfl rfl (by decide)
  ⟨h.1, h.2 (by decide)⟩

/-! ## C10: falsy parsed message defaults to "Done!" -/

/-- C10: when the parsed model reply carries a `message` field equal to
the empty string (present but falsy), the returned message is the
default `"Done!"` — the default substitutes for every falsy message
value, in both the valid- and invalid-commands branches. -/
theorem processAiContent_empty_message_defaults
    (parseJson : String → Option JsValue) (content : String) (p : JsValue)
    (hp : parseJson content = some p) (hnull : isNull p = false)
    (hm : getField p "message" = .str "") :
    (processAiContent parseJson content).message = .str "Done!" := by
  rw [processAiContent_some parseJson content p hp, if_neg (by simp [hnull])]
  split <;> simp [messageOrDone, hm, truthy]

/-- C10 witness: the default applied to the concrete reply
`{"message":"","commands":[]}`. -/
theorem processAiContent_empty_message_defaults_witness :
    (processAiContent
        (fun _ => some (.obj [("message", .str ""), ("commands", .arr [])]))
        "raw").message = .str "Done!" :=
  processAiContent_empty_message_defaults _ "raw"
    (.obj [("message", .str ""), ("commands", .arr [])]) rfl rfl rfl

/-! ## C6: fail-fast validation before any network request -/

/-- `dropWhile` leaves a replicate of a non-whitespace character
unchanged (helper). -/
theorem dropWhile_ws_replicate (n : Nat) (c : Char)
    (hc : isJsWhitespace c = false) :
    List.dropWhile isJsWhitespace (List.replicate n c) = List.replicate n c := by
  cases n with
  | zero => rfl
  | succ m =>
    rw [List.replicate_succ, List.dropWhile_cons, hc]
    simp

/-- Trimming a single leading space off a block of `a`s (helper). -/
theorem jsTrim_space_replicate (n : Nat) :
    jsTrim (' ' :: List.replicate n 'a') = List.replicate n 'a' := by
  unfold jsTrim
  rw [List.dropWhile_cons]
  have hws : isJsWhitespace ' ' = true := rfl
  have ha : isJsWhitespace 'a' = false := rfl
  rw [hws]
  simp only [if_true, dropWhile_ws_replicate n 'a' ha, List.reverse_replicate,
    dropWhile_ws_replicate n 'a' ha]

/-- A message whose trimmed form is empty or longer than 10,000
characters fails `validateMessage` (helper). -/
theorem validateMessage_invalid_of (msg : List Char)
    (h : jsTrim msg = [] ∨ 10000 < (jsTrim msg).length) :
    (validateMessage msg).valid = false := by
  unfold validateMessage
  by_cases hm : msg.isEmpty
  · simp [hm]
  · rw [if_neg (by simp [hm])]
    rcases h with h | h
    · simp [h]
    · have h10 : ((jsTrim msg).length > 10000) = True := by simp [h]
      simp only [h10, if_true]
      simp [List.isEmpty_iff]

/-- C6 counterexample: a message of 10,001 characters (one leading
space followed by 10,000 letters) exceeds 10,000 characters, yet
`sendMessage` does not throw and the network request *is* issued,
because the length limit is checked on the *trimmed* message (10,000
characters here). -/
theorem sendMessage_untrimmed_length_counterexample :
    (' ' :: List.replicate 10000 'a').length = 10001 ∧
    10000 < (' ' :: List.replicate 10000 'a').length ∧
    (sendMessage ['k'] (' ' :: List.replicate 10000 'a')
        (fun _ => none) (.content "hi")).fetchCalled = true ∧
    (sendMessage ['k'] (' ' :: List.replicate 10000 'a')
        (fun _ => none) (.content "hi")).response
      = .ok { message := .str "hi", commands := [] } := by
  have htrim := jsTrim_space_replicate 10000
  have hvalid : (validateMessage (' ' :: List.replicate 10000 'a')).valid = true := by
    unfold validateMessage
    rw [if_neg (by decide)]
    simp only [htrim, List.length_replicate]
    decide
  have hlen : (' ' :: List.replicate 10000 'a').length = 10001 := by
    rw [List.length_cons, List.length_replicate]
  refine ⟨hlen, by rw [hlen]; decide, ?_, ?_⟩
  · unfold sendMessage
    rw [if_neg (by decide), if_neg (by simp only [hvalid]; decide)]
  · unfold sendMessage
    rw [if_neg (by decide), if_neg (by simp only [hvalid]; decide)]
    show Except.ok (processAiContent (fun _ => none) "hi")
      = Except.ok { message := .str "hi", commands := [] }
    rw [processAiContent_none (fun _ => none) "hi" rfl]

/-- C6 (amended): whenever no API key is configured, or the user
message is empty or whitespace-only after trimming, or its *trimmed*
form exceeds 10,000 characters, `sendMessage` throws before any network
request is issued: the fetch to the API endpoint is never invoked on
these inputs. -/
theorem sendMessage_failfast (apiKey msg : List Char)
    (parseJson : String → Option JsValue) (net : NetResult)
    (h : apiKey = [] ∨ jsTrim msg = [] ∨ 10000 < (jsTrim msg).length) :
    (sendMessage apiKey msg parseJson net).fetchCalled = false ∧
    ∃ e, (sendMessage apiKey msg parseJson net).response = .error e := by
  unfold sendMessage
  rcases h with h | h'
  · subst h
    exact ⟨rfl, _, rfl⟩
  · have hv := validateMessage_invalid_of msg h'
    by_cases hk : apiKey.isEmpty
    · rw [if_pos hk]
      exact ⟨rfl, _, rfl⟩
    · rw [if_neg hk, if_pos (by simp [hv])]
      exact ⟨rfl, _, rfl⟩

/-- C6 witness: the fail-fast property applied with no API key
configured, and with a whitespace-only message. -/
theorem sendMessage_failfast_witness :
    ((sendMessage [] ['h', 'i'] (fun _ => none) .noContent).fetchCalled = false ∧
      ∃ e, (sendMessage [] ['h', 'i'] (fun _ => none) .noContent).response
        = .error e) ∧
    ((sendMessage ['k'] [' ', ' '] (fun _ => none) .noContent).fetchCalled = false ∧
      ∃ e, (sendMessage ['k'] [' ', ' '] (fun _ => none) .noContent).response
        = .error e) :=
  ⟨sendMessage_failfast [] ['h', 'i'] (fun _ => none) .noContent (Or.inl rfl),
   sendMessage_failfast ['k'] [' ', ' '] (fun _ => none) .noContent
     (Or.inr (Or.inl (by decide)))⟩

/-! ## C9 development -/

theorem keyCode_lt (i : Nat) : keyCode i < 256 := by
  have hlen : OBF_KEY_CODES.length = 14 := rfl
  have hall : ∀ t : Fin 14, OBF_KEY_CODES.getD t.val 0 < 256 := by decide
  unfold keyCode
  rw [hlen]
  exact hall ⟨i % 14, Nat.mod_lt _ (by decide)⟩

theorem xor_lt_256 {a b : Nat} (ha : a < 256) (hb : b < 256) : a ^^^ b < 256 := by
  have h := Nat.bitwise_lt (f := bne) (x := a) (y := b) (n := 8)
    (by simpa using ha) (by simpa using hb)
  simpa using h

theorem xorFrom_involutive (l : List Nat) (i : Nat) :
    xorFrom i (xorFrom i l) = l := by
  induction l generalizing i with
  | nil => rfl
  | cons c rest ih => simp [xorFrom, Nat.xor_cancel_right, ih]

theorem xorFrom_lt (l : List Nat) (i : Nat) (h : ∀ b ∈ l, b < 256) :
    ∀ b ∈ xorFrom i l, b < 256 := by
  induction l generalizing i with
  | nil => intro b hb; cases hb
  | cons c rest ih =>
    intro b hb
    rcases List.mem_cons.1 hb with hb' | hb'
    · subst hb'
      exact xor_lt_256 (h c (List.mem_cons_self c rest)) (keyCode_lt i)
    · exact ih (i + 1) (fun d hd => h d (List.mem_cons_of_mem _ hd)) b hb'

/-- Every base64 digit character is in the alphabet (helper). -/
theorem encC_mem (s : Nat) : encC s ∈ B64_CHARS := by
  unfold encC
  rcases Nat.lt_or_ge s B64_CHARS.length with h | h
  · rw [List.getD_eq_getElem _ _ h]
    exact List.getElem_mem h
  · rw [List.getD_eq_default _ _ h]
    decide

/-- Base64 digit characters are never the padding character (helper). -/
theorem encC_ne_pad (s : Nat) : (encC s == '=') = false := by
  have hmem := encC_mem s
  rw [beq_eq_false_iff_ne]
  intro heq
  rw [heq] at hmem
  exact absurd hmem (by decide)

/-- Decoding inverts encoding on each six-bit group (helper). -/
theorem decC_encC (s : Nat) (h : s < 64) : decC (encC s) = some s := by
  have hall : ∀ t : Fin 64, decC (encC t.val) = some t.val := by decide
  exact hall ⟨s, h⟩

/-- `b64decode` inverts `b64encode` on byte lists (helper). -/
theorem b64decode_b64encode (bytes : List Nat) (h : ∀ b ∈ bytes, b < 256) :
    b64decode (b64encode bytes) = some bytes := by
  induction bytes using b64encode.induct with
  | case1 => rfl
  | case2 a =>
    have ha : a < 256 := h a (by simp)
    have h1 := decC_encC (a / 4) (by omega)
    have h2 := decC_encC (a % 4 * 16) (by omega)
    simp [b64encode, b64decode, h1, h2]
    omega
  | case3 a b =>
    have ha : a < 256 := h a (by simp)
    have hb : b < 256 := h b (by simp)
    have h1 := decC_encC (a / 4) (by omega)
    have h2 := decC_encC (a % 4 * 16 + b / 16) (by omega)
    have h3 := decC_encC (b % 16 * 4) (by omega)
    simp [b64encode, b64decode, h1, h2, h3, encC_ne_pad]
    constructor <;> omega
  | case4 a b c rest ih =>
    have ha : a < 256 := h a (by simp)
    have hb : b < 256 := h b (by simp)
    have hc : c < 256 := h c (by simp)
    have hrest : ∀ d ∈ rest, d < 256 := fun d hd => h d (by simp [hd])
    have h1 := decC_encC (a / 4) (by omega)
    have h2 := decC_encC (a % 4 * 16 + b / 16) (by omega)
    have h3 := decC_encC (b % 16 * 4 + c / 64) (by omega)
    have h4 := decC_encC (c % 64) (by omega)
    simp [b64encode, b64decode, h1, h2, h3, h4, encC_ne_pad, ih hrest]
    refine ⟨by omega, by omega, by omega⟩

/-- Every character emitted by `b64encode` is an alphabet character or
the padding `=` (helper). -/
theorem b64encode_mem (bytes : List Nat) :
    ∀ c ∈ b64encode bytes, c ∈ B64_CHARS ∨ c = '=' := by
  induction bytes using b64encode.induct with
  | case1 => intro c hc; cases hc
  | case2 a =>
    intro ch hch
    simp only [b64encode, List.mem_cons, List.not_mem_nil, or_false] at hch
    rcases hch with rfl | rfl | rfl | rfl
    · exact Or.inl (encC_mem _)
    · exact Or.inl (encC_mem _)
    · exact Or.inr rfl
    · exact Or.inr rfl
  | case3 a b =>
    intro ch hch
    simp only [b64encode, List.mem_cons, List.not_mem_nil, or_false] at hch
    rcases hch with rfl | rfl | rfl | rfl
    · exact Or.inl (encC_mem _)
    · exact Or.inl (encC_mem _)
    · exact Or.inl (encC_mem _)
    · exact Or.inr rfl
  | case4 a b c rest ih =>
    intro ch hch
    simp only [b64encode, List.mem_cons] at hch
    rcases hch with rfl | rfl | rfl | rfl | hch
    · exact Or.inl (encC_mem _)
    · exact Or.inl (encC_mem _)
    · exact Or.inl (encC_mem _)
    · exact Or.inl (encC_mem _)
    · exact ih ch hch

/-- `b64encode` of a non-empty byte list is non-empty (helper). -/
theorem b64encode_ne_nil (bytes : List Nat) (h : bytes ≠ []) :
    b64encode bytes ≠ [] := by
  match bytes with
  | [] => exact absurd rfl h
  | [a] => simp [b64encode]
  | [a, b] => simp [b64encode]
  | a :: b :: c :: rest => simp [b64encode]

/-- A base64-encoded string never starts with the `sk-` plaintext
marker, because `-` is outside the base64 alphabet (helper). -/
theorem b64encode_not_sk (bytes : List Nat) :
    startsWithSkDash (String.mk (b64encode bytes)) = false := by
  unfold startsWithSkDash
  rw [beq_eq_false_iff_ne]
  intro heq
  have hdash : '-' ∈ (String.mk (b64encode bytes)).toList.take 3 := by
    rw [heq]; simp
  have hmem : '-' ∈ b64encode bytes :=
    List.take_subset 3 _ hdash
  rcases b64encode_mem bytes '-' hmem with h | h
  · exact absurd h (by decide)
  · exact absurd h (by decide)

/-- `xorFrom` preserves list length shape: non-empty in, non-empty out
(helper). -/
theorem xorFrom_ne_nil (l : List Nat) (i : Nat) (h : l ≠ []) :
    xorFrom i l ≠ [] := by
  match l with
  | [] => exact absurd rfl h
  | c :: rest => simp [xorFrom]

/-! ## C9: obfuscation round-trips the API key -/

/-- Unfolding equation for `deobfuscate` on a non-empty successfully
decoded input (helper). -/
theorem deobfuscate_mk (l : List Char) (h : l ≠ []) (bytes : List Nat)
    (hd : b64decode l = some bytes) :
    deobfuscate (String.mk l) = String.mk ((xorFrom 0 bytes).map Char.ofNat) := by
  unfold deobfuscate
  rw [if_neg (by
    simp only [beq_iff_eq]
    intro heq
    exact h (by simpa using congrArg String.toList heq))]
  rw [show (String.mk l).toList = l from rfl, hd]

/-- Unfolding equation for `retrieveApiKey` on an occupied slot
(helper). -/
theorem retrieveApiKey_some (stored : String) :
    retrieveApiKey (some stored) =
      if (stored == "") = true then ""
      else if startsWithSkDash stored = true then stored
      else deobfuscate stored := rfl

/-- C9: for every key string all of whose characters have code points
at most 255, `deobfuscate (obfuscate key) = key`, and storing the key
with `storeApiKey` followed by `retrieveApiKey` returns the key
exactly (the `sk-` legacy-plaintext branch can never trigger on an
obfuscated value, since `-` is outside the base64 alphabet). -/
theorem obfuscate_deobfuscate_roundtrip (key : String)
    (h : ∀ c ∈ key.toList, c.toNat ≤ 255) :
    deobfuscate (obfuscate key) = key ∧
    retrieveApiKey (storeApiKey key) = key := by
  by_cases hk : key = ""
  · subst hk
    exact ⟨rfl, rfl⟩
  · have hkb : (key == "") = false := by rw [beq_eq_false_iff_ne]; exact hk
    have hcodes : ∀ b ∈ key.toList.map Char.toNat, b < 256 := by
      intro b hb
      rw [List.mem_map] at hb
      obtain ⟨c, hc, rfl⟩ := hb
      have := h c hc
      omega
    have hx : ∀ b ∈ xorFrom 0 (key.toList.map Char.toNat), b < 256 :=
      xorFrom_lt _ _ hcodes
    have hobf : obfuscate key
        = String.mk (b64encode (xorFrom 0 (key.toList.map Char.toNat))) := by
      unfold obfuscate
      rw [if_neg (by simp [hkb])]
    have hkeylist : key.toList ≠ [] := by
      intro hl
      apply hk
      cases key with
      | mk data =>
        replace hl : data = [] := hl
        rw [hl]
    have hencne : b64encode (xorFrom 0 (key.toList.map Char.toNat)) ≠ [] :=
      b64encode_ne_nil _ (xorFrom_ne_nil _ _ (by
        intro hnil
        exact hkeylist (List.map_eq_nil_iff.1 hnil)))
    have hround : deobfuscate (obfuscate key) = key := by
      rw [hobf, deobfuscate_mk _ hencne _ (b64decode_b64encode _ hx),
        xorFrom_involutive, List.map_map,
        show Char.ofNat ∘ Char.toNat = id from funext Char.ofNat_toNat,
        List.map_id]
      cases key with
      | mk data => rfl
    refine ⟨hround, ?_⟩
    have hsk := b64encode_not_sk (xorFrom 0 (key.toList.map Char.toNat))
    have hmkne : String.mk (b64encode (xorFrom 0 (key.toList.map Char.toNat)))
        ≠ "" := fun heq => hencne (by simpa using congrArg String.toList heq)
    have hstore : storeApiKey key = some (obfuscate key) := by
      unfold storeApiKey
      rw [if_neg (by simp [hkb])]
    rw [hstore, retrieveApiKey_some, hobf]
    rw [if_neg (by simp only [beq_iff_eq]; exact hmkne)]
    rw [if_neg (by simp only [hsk]; decide)]
    rw [← hobf]
    exact hround

/-- C9 witness: the round trip applied to a concrete ASCII key. -/
theorem obfuscate_deobfuscate_roundtrip_witness :
    deobfuscate (obfuscate "sk-proj-Abc123XYZ") = "sk-proj-Abc123XYZ" ∧
    retrieveApiKey (storeApiKey "sk-proj-Abc123XYZ") = "sk-proj-Abc123XYZ" :=
  obfuscate_deobfuscate_roundtrip "sk-proj-Abc123XYZ" (by decide)

end BpmnEditor
